import Mathlib

/-!
Shallow embedding of the `seo-compass` project/task store
(`src/stores/seoStore.ts`, types from `src/types/seo.ts`), together with
theorems settling the specification's claims about it.

JS strings are `String`, arrays are `List`, `undefined`/optional values are
`Option`, and the impure identifier/timestamp generators (`generateId`,
`new Date().toISOString()`) are passed in as explicit parameters.
-/

namespace SeoCompass

/-- Embedding of `SEOCategory` from `src/types/seo.ts` (the `local` literal is spelled
`localSeo` because `local` is a Lean keyword). -/
inductive SEOCategory
  | technical
  | onPage
  | content
  | offPage
  | localSeo
  | tracking
deriving DecidableEq, Repr

/-- Embedding of `TaskStatus` from `src/types/seo.ts`. -/
inductive TaskStatus
  | notStarted
  | inProgress
  | done
  | skipped
deriving DecidableEq, Repr

/-- Embedding of `Impact` from `src/types/seo.ts`. -/
inductive Impact
  | high
  | medium
  | low
deriving DecidableEq, Repr

/-- Embedding of `Priority` from `src/types/seo.ts`. -/
inductive Priority
  | critical
  | high
  | medium
  | low
deriving DecidableEq, Repr

/-- Embedding of `SEOTask` from `src/types/seo.ts` (with the `attachments` column added by
the second migration). `completionDate?` is optional, hence `Option String`. -/
structure SEOTask where
  id : String
  projectId : String
  category : SEOCategory
  title : String
  description : String
  whyItMatters : String
  executionSteps : List String
  toolsRequired : List String
  expectedImpact : Impact
  priority : Priority
  status : TaskStatus
  completionDate : Option String
  notes : String
  proofUrl : String
  timeSpentMinutes : Nat
  createdAt : String
  attachments : List String
deriving DecidableEq, Repr

/-- Embedding of `TaskHistoryEntry` from `src/types/seo.ts`. -/
structure TaskHistoryEntry where
  id : String
  taskId : String
  taskTitle : String
  category : SEOCategory
  oldStatus : TaskStatus
  newStatus : TaskStatus
  changedBy : String
  changeDate : String
  notes : String
deriving DecidableEq, Repr

/-- Embedding of `SEOProject` from `src/types/seo.ts`. -/
structure SEOProject where
  id : String
  name : String
  domain : String
  startDate : String
  clientName : String
  industry : String
  createdAt : String
deriving DecidableEq, Repr

/-- Embedding of `StoreData` from `src/stores/seoStore.ts`. -/
structure StoreData where
  projects : List SEOProject
  tasks : List SEOTask
  history : List TaskHistoryEntry
deriving DecidableEq, Repr

/-- The empty snapshot `{ projects: [], tasks: [], history: [] }`. -/
def emptyStore : StoreData := ⟨[], [], []⟩

/-- The impact-weight table `{ high: 3, medium: 2, low: 1 }` from
`getProjectScore`. -/
def impactWeight : Impact → Nat
  | .high => 3
  | .medium => 2
  | .low => 1

/-- Embedding of `getProjectScore` (`src/stores/seoStore.ts` lines 263-270): filter the
tasks of the project, return 0 when there are none, otherwise
`Math.round((completedWeight / totalWeight) * 100)` where the weights are the
impact-weighted sums of all tasks resp. of the tasks with status `done`.
`Math.round` on these non-negative rationals is Mathlib's `round`. -/
def getProjectScore (tasks : List SEOTask) (projectId : String) : ℤ :=
  let ts := tasks.filter (fun t => decide (t.projectId = projectId))
  if ts.length = 0 then 0
  else
    let totalWeight := ts.foldl (fun sum t => sum + impactWeight t.expectedImpact) 0
    let completedWeight := (ts.filter (fun t => decide (t.status = .done))).foldl
      (fun sum t => sum + impactWeight t.expectedImpact) 0
    round (((completedWeight : ℚ) / (totalWeight : ℚ)) * 100)

/-- One entry of the Task Template Catalog (`SEO_TASK_TEMPLATES` in
`src/data/seoTasks.ts`): everything a task needs except identity and the
mutable runtime fields. The catalog's concrete contents are irrelevant to the
claims, so the seeding operations are parametric in the template list. -/
structure TaskTemplate where
  category : SEOCategory
  title : String
  description : String
  whyItMatters : String
  executionSteps : List String
  toolsRequired : List String
  expectedImpact : Impact
  priority : Priority
deriving DecidableEq, Repr

/-- Guest-mode seeding:
`SEO_TASK_TEMPLATES.map(t => ({ id: generateId(), projectId: id, ..., status:
'not-started', notes: '', proofUrl: '', timeSpentMinutes: 0, createdAt: now,
attachments: [] }))` (`seoStore.ts` lines 110-117). The fresh-id generator is
modelled as `gen` applied to the element's index. -/
def seedTasksGuest (gen : Nat → String) (projectId now : String) :
    List TaskTemplate → Nat → List SEOTask
  | [], _ => []
  | t :: rest, i =>
      { id := gen i, projectId := projectId, category := t.category,
        title := t.title, description := t.description,
        whyItMatters := t.whyItMatters, executionSteps := t.executionSteps,
        toolsRequired := t.toolsRequired, expectedImpact := t.expectedImpact,
        priority := t.priority, status := .notStarted, completionDate := none,
        notes := "", proofUrl := "", timeSpentMinutes := 0, createdAt := now,
        attachments := [] } :: seedTasksGuest gen projectId now rest (i + 1)

/-- Embedding of `createProject`, guest branch (`seoStore.ts` lines 107-120): generate an
id, build the project record, clone the template catalog, append both to the
store, return the id. `gen 0` is the project's `generateId()` call and task
`i` receives `gen (i+1)`. -/
def createProjectGuest (gen : Nat → String) (now : String)
    (name domain startDate clientName industry : String)
    (templates : List TaskTemplate) (d : StoreData) : StoreData × String :=
  let id := gen 0
  let newProject : SEOProject :=
    { id := id, name := name, domain := domain, startDate := startDate,
      clientName := clientName, industry := industry, createdAt := now }
  let tasks := seedTasksGuest (fun i => gen (i + 1)) id now templates 0
  ({ d with projects := d.projects ++ [newProject],
            tasks := d.tasks ++ tasks }, id)

/-- Cloud-mode seeding (`seoStore.ts` lines 128-133 plus the table defaults of
the migration): the insert rows carry the template fields with
`status: 'not-started', notes: '', proof_url: '', time_spent_minutes: 0`; the
database fills `id` (modelled by `gen`), `created_at := now`,
`completion_date := NULL` and `attachments := []`. -/
def seedTasksCloud (gen : Nat → String) (projectId now : String) :
    List TaskTemplate → Nat → List SEOTask
  | [], _ => []
  | t :: rest, i =>
      { id := gen i, projectId := projectId, category := t.category,
        title := t.title, description := t.description,
        whyItMatters := t.whyItMatters, executionSteps := t.executionSteps,
        toolsRequired := t.toolsRequired, expectedImpact := t.expectedImpact,
        priority := t.priority, status := .notStarted, completionDate := none,
        notes := "", proofUrl := "", timeSpentMinutes := 0, createdAt := now,
        attachments := [] } :: seedTasksCloud gen projectId now rest (i + 1)

/-- Embedding of `createProject`, cloud branch (`seoStore.ts` lines 122-137), acting on the
backend state viewed through the row mapping of `loadCloud`.
`projectInsert` is the outcome of the `seo_projects` insert (`none` models
`error || !newProject`); `taskInsertFails` models the `seo_tasks` bulk insert
failing — its error is not inspected by the source, which returns
`newProject.id` regardless. On project-insert failure the function returns the
sentinel `''` without touching the tasks. -/
def createProjectCloud (projectInsert : Option SEOProject)
    (taskInsertFails : Bool) (gen : Nat → String) (now : String)
    (templates : List TaskTemplate) (d : StoreData) : StoreData × String :=
  match projectInsert with
  | none => (d, "")
  | some newProject =>
      let taskRows := seedTasksCloud gen newProject.id now templates 0
      ({ d with projects := d.projects ++ [newProject],
                tasks := if taskInsertFails then d.tasks
                         else d.tasks ++ taskRows }, newProject.id)

/-- Embedding of `Partial<SEOTask>` as passed to `updateTask`: `none` = key absent.
Only the fields a caller can meaningfully update are modelled — the six
mutable fields the cloud branch whitelists into `dbUpdates`, plus `title` and
`category` (needed to express that the history snapshot is taken before the
merge). -/
structure TaskUpdates where
  title : Option String := none
  category : Option SEOCategory := none
  status : Option TaskStatus := none
  notes : Option String := none
  proofUrl : Option String := none
  timeSpentMinutes : Option Nat := none
  completionDate : Option String := none
  attachments : Option (List String) := none
deriving DecidableEq, Repr

/-- JS falsiness of an optional string (`!updates.completionDate`,
`updates.notes || ''`): true for `undefined` and for `''`. -/
def isFalsyStr : Option String → Bool
  | none => true
  | some s => decide (s = "")

/-- The guest-branch merge `{ ...t, ...updates }` (`seoStore.ts` line 155):
every key present in the partial overwrites the task's field. -/
def applyUpdates (t : SEOTask) (u : TaskUpdates) : SEOTask :=
  { t with
    title := u.title.getD t.title,
    category := u.category.getD t.category,
    status := u.status.getD t.status,
    notes := u.notes.getD t.notes,
    proofUrl := u.proofUrl.getD t.proofUrl,
    timeSpentMinutes := u.timeSpentMinutes.getD t.timeSpentMinutes,
    completionDate := match u.completionDate with
      | some c => some c
      | none => t.completionDate,
    attachments := u.attachments.getD t.attachments }

/-- The cloud-branch `dbUpdates` whitelist (`seoStore.ts` lines 168-177):
only `status`, `notes`, `proof_url`, `time_spent_minutes`, `completion_date`
and `attachments` are written to the row; other supplied keys (e.g. `title`)
are dropped. The `Object.keys(dbUpdates).length > 0` guard is omitted: an
all-absent update writes nothing either way. -/
def applyDbUpdates (t : SEOTask) (u : TaskUpdates) : SEOTask :=
  { t with
    status := u.status.getD t.status,
    notes := u.notes.getD t.notes,
    proofUrl := u.proofUrl.getD t.proofUrl,
    timeSpentMinutes := u.timeSpentMinutes.getD t.timeSpentMinutes,
    completionDate := match u.completionDate with
      | some c => some c
      | none => t.completionDate,
    attachments := u.attachments.getD t.attachments }

/-- Embedding of `data.tasks.find(t => t.id === taskId)` (`seoStore.ts` line 141 and the
analogous lookups in the attachment and delete operations). -/
def findTask (d : StoreData) (taskId : String) : Option SEOTask :=
  d.tasks.find? (fun t => decide (t.id = taskId))

/-- Embedding of `updates.status && updates.status !== task.status` (every `TaskStatus`
string literal is truthy, so the `&&` is a presence check). -/
def statusChanged (u : TaskUpdates) (t : SEOTask) : Bool :=
  match u.status with
  | some s => decide (s ≠ t.status)
  | none => false

/-- The history entry pushed by the guest branch (`seoStore.ts` lines
148-152); `changeDate` is `new Date().toISOString()` and `notes` is
`updates.notes || ''`. -/
def mkHistoryEntry (hid now changedBy : String) (taskId : String)
    (task : SEOTask) (u : TaskUpdates) : TaskHistoryEntry :=
  { id := hid, taskId := taskId, taskTitle := task.title,
    category := task.category, oldStatus := task.status,
    newStatus := u.status.getD task.status, changedBy := changedBy,
    changeDate := now,
    notes := if isFalsyStr u.notes then "" else u.notes.getD "" }

/-- The in-place mutation of the caller's partial (`seoStore.ts` line 153 /
165): inside the status-changed branch, `if (updates.status === 'done' &&
!updates.completionDate) updates.completionDate = now`. Returns the partial
as it stands after the call. -/
def stampUpdates (now : String) (task : SEOTask) (u : TaskUpdates) :
    TaskUpdates :=
  if statusChanged u task ∧ u.status = some .done ∧ isFalsyStr u.completionDate
  then { u with completionDate := some now }
  else u

/-- Embedding of `updateTask`, guest branch (`seoStore.ts` lines 140-157): find the task
(no-op when absent); when the supplied status differs from the current one,
push one history entry (snapshotting the pre-update task) and stamp the
completion date; merge the (possibly stamped) partial into the matching task.
Returns the new store and the caller's partial as mutated by the call. -/
def updateTaskGuest (hid now : String) (taskId : String) (u : TaskUpdates)
    (d : StoreData) : StoreData × TaskUpdates :=
  match findTask d taskId with
  | none => (d, u)
  | some task =>
      let history :=
        if statusChanged u task
        then d.history ++ [mkHistoryEntry hid now "Guest" taskId task u]
        else d.history
      let u' := stampUpdates now task u
      ({ d with
          tasks := d.tasks.map
            (fun t => if t.id = taskId then applyUpdates t u' else t),
          history := history }, u')

/-- Embedding of `updateTask`, cloud branch (`seoStore.ts` lines 160-179), acting on the
backend rows viewed through the `loadCloud` mapping (the snapshot and the
backend agree after the trailing re-fetch): when the supplied status differs,
insert one `task_history` row (`changed_by: 'Admin'`, `change_date := now`,
id `hid` generated by the database) and stamp the completion date into the
caller's partial; then apply the whitelisted `dbUpdates` to the matching row. -/
def updateTaskCloud (hid now : String) (taskId : String) (u : TaskUpdates)
    (d : StoreData) : StoreData × TaskUpdates :=
  match findTask d taskId with
  | none => (d, u)
  | some task =>
      let history :=
        if statusChanged u task
        then d.history ++ [mkHistoryEntry hid now "Admin" taskId task u]
        else d.history
      let u' := stampUpdates now task u
      ({ d with
          tasks := d.tasks.map
            (fun t => if t.id = taskId then applyDbUpdates t u' else t),
          history := history }, u')

/-- Embedding of `uploadAttachment`, guest branch (`seoStore.ts` lines 184-198): the file
is read as a data URL (modelled as the parameter `dataUrl`); when the task
exists its attachment list gets the data URL appended; the promise resolves
with the data URL in every case. -/
def uploadAttachmentGuest (dataUrl : String) (taskId : String)
    (d : StoreData) : StoreData × Option String :=
  match findTask d taskId with
  | none => (d, some dataUrl)
  | some task =>
      let attachments := task.attachments ++ [dataUrl]
      let tasks := d.tasks.map
        (fun t => if t.id = taskId then { t with attachments := attachments }
                  else t)
      ({ d with tasks := tasks }, some dataUrl)

/-- Embedding of `uploadAttachment`, cloud branch (`seoStore.ts` lines 201-216): on storage
failure, `null` is returned and nothing changes; on success the public URL
(modelled as the parameter `url`) is appended to the matching row's
attachment list (`task?.attachments || []` makes a missing task harmless:
the `.eq('id', taskId)` update then matches no row). -/
def uploadAttachmentCloud (url : String) (uploadFails : Bool)
    (taskId : String) (d : StoreData) : StoreData × Option String :=
  if uploadFails then (d, none)
  else
    let currentAttachments :=
      match findTask d taskId with
      | some task => task.attachments
      | none => []
    let newAttachments := currentAttachments ++ [url]
    let tasks := d.tasks.map
      (fun t => if t.id = taskId then { t with attachments := newAttachments }
                else t)
    ({ d with tasks := tasks }, some url)

/-- Embedding of `deleteAttachment` (`seoStore.ts` lines 219-236): both branches compute
the same list effect — find the task (no-op when absent) and keep every
attachment different from the given reference; the cloud branch's extra
object-store removal does not touch the list. -/
def deleteAttachment (taskId attachmentUrl : String) (d : StoreData) :
    StoreData :=
  match findTask d taskId with
  | none => d
  | some task =>
      let newAttachments :=
        task.attachments.filter (fun a => decide (a ≠ attachmentUrl))
      let tasks := d.tasks.map
        (fun t => if t.id = taskId then { t with attachments := newAttachments }
                  else t)
      { d with tasks := tasks }

/-- Embedding of `deleteProject`, guest branch (`seoStore.ts` lines 240-246): drop the
project, drop its tasks, and keep a history entry only when the task its
`taskId` resolves to (looked up in the pre-delete task list) does not belong
to the deleted project — `t?.projectId !== projectId` keeps entries whose
task cannot be found. -/
def deleteProjectGuest (projectId : String) (d : StoreData) : StoreData :=
  { projects := d.projects.filter (fun p => decide (p.id ≠ projectId)),
    tasks := d.tasks.filter (fun t => decide (t.projectId ≠ projectId)),
    history := d.history.filter (fun h =>
      match findTask d h.taskId with
      | some t => decide (t.projectId ≠ projectId)
      | none => true) }

/-- Embedding of `loadLocal` (`seoStore.ts` lines 19-25): a missing or corrupt blob
(modelled as `none`) yields the empty snapshot. -/
def loadLocal (stored : Option StoreData) : StoreData :=
  stored.getD emptyStore

/-- The hook state relevant to the mode-switch protocol: the in-memory
snapshot (`data`), the `loading` flag, and `prevUserRef.current`. -/
structure StoreState where
  data : StoreData
  loading : Bool
  prevUser : Option String
deriving DecidableEq, Repr

/-- Outcome of the `loadCloud` fetch: the three selects succeed and map to a
snapshot, or the whole `try` block throws. -/
inductive FetchOutcome
  | ok (d : StoreData)
  | failed
deriving DecidableEq, Repr

/-- The user-change effect (`seoStore.ts` lines 79-89): on a new signed-in
identity, record it, set `loading` and issue `loadCloud()` (the returned
`Bool`); on sign-out, clear `prevUserRef` and replace the snapshot with local
storage; otherwise do nothing. The snapshot is *not* cleared on sign-in. -/
def userChangeEffect (stored : Option StoreData) (user : Option String)
    (s : StoreState) : StoreState × Bool :=
  match user with
  | some uid =>
      if s.prevUser = some uid then (s, false)
      else ({ s with prevUser := some uid, loading := true }, true)
  | none =>
      ({ data := loadLocal stored, loading := false, prevUser := none }, false)

/-- Resolution of `loadCloud` (`seoStore.ts` lines 39-76): success replaces
the snapshot with the fetched rows; the `catch` only logs; `finally` clears
`loading` in both cases. No retry is issued. -/
def loadCloudResolve (r : FetchOutcome) (s : StoreState) : StoreState :=
  match r with
  | .ok d => { s with data := d, loading := false }
  | .failed => { s with loading := false }

/-- The per-template seeding contract of the specification: the task carries
the template's catalog fields, belongs to the new project, starts
`not-started`, and has every mutable field at its default. -/
def seededFrom (projectId : String) (task : SEOTask) (t : TaskTemplate) :
    Prop :=
  task.projectId = projectId ∧ task.category = t.category ∧
  task.title = t.title ∧ task.description = t.description ∧
  task.executionSteps = t.executionSteps ∧
  task.toolsRequired = t.toolsRequired ∧
  task.expectedImpact = t.expectedImpact ∧ task.priority = t.priority ∧
  task.status = .notStarted ∧ task.notes = "" ∧ task.proofUrl = "" ∧
  task.timeSpentMinutes = 0 ∧ task.attachments = []

/-- Fixture: a freshly seeded task of project `p1`. -/
def exTask : SEOTask :=
  { id := "t1", projectId := "p1", category := .technical, title := "T",
    description := "D", whyItMatters := "W", executionSteps := ["s1"],
    toolsRequired := ["tool"], expectedImpact := .high, priority := .critical,
    status := .notStarted, completionDate := none, notes := "",
    proofUrl := "", timeSpentMinutes := 0, createdAt := "2026-01-01",
    attachments := [] }

/-- Fixture: a second task, belonging to project `p2`. -/
def exTask2 : SEOTask :=
  { exTask with
    id := "t2", projectId := "p2", title := "T2", expectedImpact := .low }

/-- Fixture: a project record. -/
def exProject : SEOProject :=
  { id := "p1", name := "N", domain := "example.com", startDate := "2026-01-01",
    clientName := "C", industry := "I", createdAt := "2026-01-01" }

/-- Fixture: a guest-mode store with one project and one task. -/
def exStore : StoreData :=
  { projects := [exProject], tasks := [exTask], history := [] }

/-- Fixture: a store whose task is already `done` with no completion date. -/
def exStoreDone : StoreData :=
  { projects := [exProject], tasks := [{ exTask with status := .done }],
    history := [] }

/-- Fixture: a store whose task already holds the attachment `"d"`. -/
def exStoreDup : StoreData :=
  { projects := [exProject], tasks := [{ exTask with attachments := ["d"] }],
    history := [] }

/-- Fixture: two projects with one task each, and one history entry per
task. -/
def exStore2 : StoreData :=
  { projects := [exProject, { exProject with id := "p2", name := "N2" }],
    tasks := [exTask, exTask2],
    history :=
      [{ id := "h1", taskId := "t1", taskTitle := "T", category := .technical,
         oldStatus := .notStarted, newStatus := .done, changedBy := "Guest",
         changeDate := "2026-01-02", notes := "" },
       { id := "h2", taskId := "t2", taskTitle := "T2", category := .technical,
         oldStatus := .notStarted, newStatus := .inProgress,
         changedBy := "Guest", changeDate := "2026-01-03", notes := "" }] }

/-- Fixture: the guest-mode hook state holding `exStore`, signed out. -/
def exGuestState : StoreState :=
  { data := exStore, loading := false, prevUser := none }

section Lemmas

/-- Lemma: `find?` by id commutes with an id-preserving update of the matching
elements. -/
theorem find?_map_update (tid : String) (g : SEOTask → SEOTask)
    (hg : ∀ t, (g t).id = t.id) :
    ∀ (l : List SEOTask) (task : SEOTask),
      l.find? (fun t => decide (t.id = tid)) = some task →
      (l.map (fun t => if t.id = tid then g t else t)).find?
          (fun t => decide (t.id = tid)) = some (g task)
  | [], task, h => by simp at h
  | a :: l, task, h => by
      by_cases ha : a.id = tid
      · rw [List.find?_cons_of_pos _ (by simpa using ha)] at h
        injection h with h2
        subst h2
        simp only [List.map_cons, if_pos ha]
        exact List.find?_cons_of_pos _ (by simpa using (hg a).trans ha)
      · rw [List.find?_cons_of_neg _ (by simpa using ha)] at h
        simp only [List.map_cons, if_neg ha]
        rw [List.find?_cons_of_neg _ (by simpa using ha)]
        exact find?_map_update tid g hg l task h

/-- With pairwise-distinct task ids, `find?` by id returns any member whose
id matches. -/
theorem find?_of_mem_nodup :
    ∀ {l : List SEOTask}, (l.map (fun t => t.id)).Nodup →
      ∀ {t : SEOTask}, t ∈ l → ∀ (tid : String), t.id = tid →
      l.find? (fun s => decide (s.id = tid)) = some t
  | [], _, _, ht, _, _ => by cases ht
  | a :: l, hnd, t, ht, tid, hid => by
      rcases List.mem_cons.mp ht with rfl | htl
      · exact List.find?_cons_of_pos _ (by simpa using hid)
      · have hnd' : a.id ∉ l.map (fun s => s.id) ∧
            (l.map (fun s => s.id)).Nodup := by
          rw [List.map_cons, List.nodup_cons] at hnd
          exact hnd
        have ha : ¬a.id = tid := by
          intro hcontra
          have heq : a.id = t.id := by rw [hcontra, ← hid]
          exact hnd'.1 (heq ▸ List.mem_map_of_mem (fun s => s.id) htl)
        rw [List.find?_cons_of_neg _ (by simpa using ha)]
        exact find?_of_mem_nodup hnd'.2 htl tid hid

/-- Shifting the accumulator out of the impact-weight `reduce`. -/
theorem foldl_weight_add :
    ∀ (l : List SEOTask) (n : Nat),
      l.foldl (fun sum t => sum + impactWeight t.expectedImpact) n
        = n + l.foldl (fun sum t => sum + impactWeight t.expectedImpact) 0
  | [], n => by simp
  | a :: l, n => by
      simp only [List.foldl_cons, Nat.zero_add]
      rw [foldl_weight_add l (n + impactWeight a.expectedImpact),
          foldl_weight_add l (impactWeight a.expectedImpact)]
      omega

/-- The impact-weight sum of a filtered list is at most that of the list. -/
theorem foldl_weight_filter_le (p : SEOTask → Bool) :
    ∀ (l : List SEOTask),
      (l.filter p).foldl (fun sum t => sum + impactWeight t.expectedImpact) 0
        ≤ l.foldl (fun sum t => sum + impactWeight t.expectedImpact) 0
  | [] => le_refl _
  | a :: l => by
      have ih := foldl_weight_filter_le p l
      simp only [List.filter_cons]
      by_cases hp : p a
      · simp only [if_pos hp, List.foldl_cons, Nat.zero_add]
        rw [foldl_weight_add (l.filter p) (impactWeight a.expectedImpact),
            foldl_weight_add l (impactWeight a.expectedImpact)]
        omega
      · simp only [if_neg hp, List.foldl_cons, Nat.zero_add]
        rw [foldl_weight_add l (impactWeight a.expectedImpact)]
        omega

/-- Every impact weight is at least one. -/
theorem one_le_impactWeight (i : Impact) : 1 ≤ impactWeight i := by
  cases i <;> simp [impactWeight]

/-- A nonempty task list has a positive total weight. -/
theorem one_le_foldl_weight (l : List SEOTask) (hl : l ≠ []) :
    1 ≤ l.foldl (fun sum t => sum + impactWeight t.expectedImpact) 0 := by
  cases l with
  | nil => exact absurd rfl hl
  | cons a l =>
      simp only [List.foldl_cons, Nat.zero_add]
      rw [foldl_weight_add l (impactWeight a.expectedImpact)]
      have := one_le_impactWeight a.expectedImpact
      omega

/-- Guest seeding produces one task per template. -/
theorem seedTasksGuest_length (gen : Nat → String) (pid now : String) :
    ∀ (ts : List TaskTemplate) (i : Nat),
      (seedTasksGuest gen pid now ts i).length = ts.length
  | [], _ => rfl
  | t :: rest, i => by
      simp [seedTasksGuest, seedTasksGuest_length gen pid now rest (i + 1)]

/-- Each guest-seeded task satisfies the seeding contract of its template. -/
theorem seedTasksGuest_forall2 (gen : Nat → String) (pid now : String) :
    ∀ (ts : List TaskTemplate) (i : Nat),
      List.Forall₂ (seededFrom pid) (seedTasksGuest gen pid now ts i) ts
  | [], _ => by
      simp only [seedTasksGuest]
      exact List.Forall₂.nil
  | t :: rest, i => by
      simp only [seedTasksGuest]
      refine List.Forall₂.cons ?_ (seedTasksGuest_forall2 gen pid now rest (i + 1))
      unfold seededFrom
      exact ⟨rfl, rfl, rfl, rfl, rfl, rfl, rfl, rfl, rfl, rfl, rfl, rfl, rfl⟩

/-- Cloud seeding produces one row per template. -/
theorem seedTasksCloud_length (gen : Nat → String) (pid now : String) :
    ∀ (ts : List TaskTemplate) (i : Nat),
      (seedTasksCloud gen pid now ts i).length = ts.length
  | [], _ => rfl
  | t :: rest, i => by
      simp [seedTasksCloud, seedTasksCloud_length gen pid now rest (i + 1)]

/-- Each cloud-seeded row satisfies the seeding contract of its template. -/
theorem seedTasksCloud_forall2 (gen : Nat → String) (pid now : String) :
    ∀ (ts : List TaskTemplate) (i : Nat),
      List.Forall₂ (seededFrom pid) (seedTasksCloud gen pid now ts i) ts
  | [], _ => by
      simp only [seedTasksCloud]
      exact List.Forall₂.nil
  | t :: rest, i => by
      simp only [seedTasksCloud]
      refine List.Forall₂.cons ?_ (seedTasksCloud_forall2 gen pid now rest (i + 1))
      unfold seededFrom
      exact ⟨rfl, rfl, rfl, rfl, rfl, rfl, rfl, rfl, rfl, rfl, rfl, rfl, rfl⟩

/-- After a guest `updateTask`, looking the task up again yields the old task
merged with the (possibly completion-stamped) partial. -/
theorem findTask_updateTaskGuest (hid now taskId : String) (u : TaskUpdates)
    (d : StoreData) (task : SEOTask) (hfind : findTask d taskId = some task) :
    findTask (updateTaskGuest hid now taskId u d).1 taskId
      = some (applyUpdates task (stampUpdates now task u)) := by
  unfold updateTaskGuest
  rw [hfind]
  unfold findTask
  exact find?_map_update taskId
    (fun t => applyUpdates t (stampUpdates now task u)) (fun t => rfl)
    d.tasks task hfind

/-- After a cloud `updateTask`, looking the row up again yields the old row
with the whitelisted `dbUpdates` of the (possibly stamped) partial applied. -/
theorem findTask_updateTaskCloud (hid now taskId : String) (u : TaskUpdates)
    (d : StoreData) (task : SEOTask) (hfind : findTask d taskId = some task) :
    findTask (updateTaskCloud hid now taskId u d).1 taskId
      = some (applyDbUpdates task (stampUpdates now task u)) := by
  unfold updateTaskCloud
  rw [hfind]
  unfold findTask
  exact find?_map_update taskId
    (fun t => applyDbUpdates t (stampUpdates now task u)) (fun t => rfl)
    d.tasks task hfind

/-- Completion-date stamping touches no field of the partial other than
`completionDate`. -/
theorem stampUpdates_fields (now : String) (task : SEOTask) (u : TaskUpdates) :
    (stampUpdates now task u).status = u.status
    ∧ (stampUpdates now task u).notes = u.notes
    ∧ (stampUpdates now task u).proofUrl = u.proofUrl
    ∧ (stampUpdates now task u).timeSpentMinutes = u.timeSpentMinutes
    ∧ (stampUpdates now task u).attachments = u.attachments
    ∧ (stampUpdates now task u).title = u.title
    ∧ (stampUpdates now task u).category = u.category := by
  unfold stampUpdates
  by_cases h : statusChanged u task = true ∧ u.status = some TaskStatus.done
      ∧ isFalsyStr u.completionDate = true
  · rw [if_pos h]
    exact ⟨rfl, rfl, rfl, rfl, rfl, rfl, rfl⟩
  · rw [if_neg h]
    exact ⟨rfl, rfl, rfl, rfl, rfl, rfl, rfl⟩

end Lemmas

/-- C5 — Score algorithm and bounds: `getProjectScore` is the impact-weighted
rounded completion percentage; it is 0 for a project with no tasks, lies
between 0 and 100 for every project, is 100 when the project has tasks and
all of them are `done`, and is 0 when none of them is `done`. -/
theorem getProjectScore_bounds (tasks : List SEOTask) (projectId : String) :
    0 ≤ getProjectScore tasks projectId ∧
    getProjectScore tasks projectId ≤ 100 ∧
    (tasks.filter (fun t => decide (t.projectId = projectId)) = [] →
      getProjectScore tasks projectId = 0) ∧
    (tasks.filter (fun t => decide (t.projectId = projectId)) ≠ [] →
      (∀ t ∈ tasks.filter (fun t => decide (t.projectId = projectId)),
        t.status = TaskStatus.done) →
      getProjectScore tasks projectId = 100) ∧
    ((∀ t ∈ tasks.filter (fun t => decide (t.projectId = projectId)),
        t.status ≠ TaskStatus.done) →
      getProjectScore tasks projectId = 0) := by
  by_cases hempty :
      tasks.filter (fun t => decide (t.projectId = projectId)) = []
  · have hscore : getProjectScore tasks projectId = 0 := by
      simp [getProjectScore, hempty]
    exact ⟨by rw [hscore], by rw [hscore]; norm_num, fun _ => hscore,
      fun hne _ => absurd hempty hne, fun _ => hscore⟩
  · set L := tasks.filter (fun t => decide (t.projectId = projectId)) with hL
    set c := (L.filter (fun t => decide (t.status = TaskStatus.done))).foldl
        (fun sum t => sum + impactWeight t.expectedImpact) 0 with hc
    set w := L.foldl (fun sum t => sum + impactWeight t.expectedImpact) 0
      with hw
    have hscore :
        getProjectScore tasks projectId = round (((c : ℚ) / (w : ℚ)) * 100) := by
      simp only [getProjectScore]
      rw [if_neg (fun hlen => hempty (List.length_eq_zero.mp hlen))]
    have hcw : c ≤ w := foldl_weight_filter_le _ L
    have h1w : 1 ≤ w := one_le_foldl_weight L hempty
    have hwq : (0 : ℚ) < (w : ℚ) := by exact_mod_cast h1w
    have hq0 : (0 : ℚ) ≤ ((c : ℚ) / (w : ℚ)) * 100 := by positivity
    have hq100 : ((c : ℚ) / (w : ℚ)) * 100 ≤ 100 := by
      have hdiv : (c : ℚ) / (w : ℚ) ≤ 1 :=
        (div_le_one hwq).mpr (by exact_mod_cast hcw)
      nlinarith
    have h0 : (0 : ℤ) ≤ round (((c : ℚ) / (w : ℚ)) * 100) := by
      rw [round_eq]
      exact Int.floor_nonneg.mpr (by linarith)
    have h100 : round (((c : ℚ) / (w : ℚ)) * 100) ≤ 100 := by
      rw [round_eq]
      have hle : ((c : ℚ) / (w : ℚ)) * 100 + 1 / 2 ≤ 100 + 1 / 2 := by
        linarith
      calc ⌊((c : ℚ) / (w : ℚ)) * 100 + 1 / 2⌋
          ≤ ⌊(100 : ℚ) + 1 / 2⌋ := Int.floor_mono hle
        _ = 100 := by
            rw [Int.floor_eq_iff]
            constructor <;> norm_num
    refine ⟨hscore ▸ h0, hscore ▸ h100, fun habs => absurd habs hempty,
      fun _ hall => ?_, fun hnone => ?_⟩
    · have hfix : L.filter (fun t => decide (t.status = TaskStatus.done)) = L :=
        List.filter_eq_self.mpr (fun a ha => by simpa using hall a ha)
      have hceq : c = w := by rw [hc, hfix]
      rw [hscore, hceq, div_self (ne_of_gt hwq)]
      norm_num
    · have hfix : L.filter (fun t => decide (t.status = TaskStatus.done)) = [] :=
        List.filter_eq_nil_iff.mpr (fun a ha => by simpa using hnone a ha)
      have hceq : c = 0 := by rw [hc, hfix]; rfl
      rw [hscore, hceq]
      norm_num

/-- C5 witness: a one-task project with the task `done` scores 100, and an
empty task list scores 0. -/
theorem getProjectScore_bounds_witness :
    getProjectScore [{ exTask with status := TaskStatus.done }] "p1" = 100 ∧
    getProjectScore [] "p1" = 0 :=
  ⟨(getProjectScore_bounds [{ exTask with status := TaskStatus.done }]
        "p1").2.2.2.1 (by decide) (by decide),
    (getProjectScore_bounds [] "p1").2.2.1 (by decide)⟩

/-- C2 — Seeding completeness: every successful `createProject` call creates
exactly one task per catalog entry, in catalog order, each carrying its
template's category/title/description/steps/tools/impact/priority, scoped to
the new project, with status `not-started` and every mutable field at its
default (`seededFrom`); this holds for the guest branch and for the cloud
branch when both inserts succeed. -/
theorem createProject_seedingCompleteness (gen : Nat → String)
    (now name domain startDate clientName industry : String)
    (templates : List TaskTemplate) (d : StoreData) :
    ((createProjectGuest gen now name domain startDate clientName industry
        templates d).1.tasks
      = d.tasks ++ seedTasksGuest (fun i => gen (i + 1)) (gen 0) now templates 0)
    ∧ (seedTasksGuest (fun i => gen (i + 1)) (gen 0) now templates 0).length
        = templates.length
    ∧ List.Forall₂ (seededFrom (gen 0))
        (seedTasksGuest (fun i => gen (i + 1)) (gen 0) now templates 0)
        templates
    ∧ ∀ p : SEOProject,
        ((createProjectCloud (some p) false gen now templates d).1.tasks
          = d.tasks ++ seedTasksCloud gen p.id now templates 0)
        ∧ (seedTasksCloud gen p.id now templates 0).length = templates.length
        ∧ List.Forall₂ (seededFrom p.id)
            (seedTasksCloud gen p.id now templates 0) templates :=
  ⟨rfl, seedTasksGuest_length _ _ _ templates 0,
    seedTasksGuest_forall2 _ _ _ templates 0,
    fun p => ⟨rfl, seedTasksCloud_length _ _ _ templates 0,
      seedTasksCloud_forall2 _ _ _ templates 0⟩⟩

/-- C3 — History append semantics: an `updateTask` on an existing task whose
partial carries a status `b` different from the current status `a` appends
exactly one history entry, in both branches, with `oldStatus = a`,
`newStatus = b`, and the pre-update title and category as snapshot; a partial
with no status or with the unchanged status appends nothing. -/
theorem updateTask_historyAppend (hid now taskId : String) (u : TaskUpdates)
    (d : StoreData) (task : SEOTask)
    (hfind : findTask d taskId = some task) :
    (∀ b : TaskStatus, u.status = some b → b ≠ task.status →
      ((updateTaskGuest hid now taskId u d).1.history
          = d.history ++ [mkHistoryEntry hid now "Guest" taskId task u])
      ∧ ((updateTaskCloud hid now taskId u d).1.history
          = d.history ++ [mkHistoryEntry hid now "Admin" taskId task u])
      ∧ (mkHistoryEntry hid now "Guest" taskId task u).oldStatus = task.status
      ∧ (mkHistoryEntry hid now "Guest" taskId task u).newStatus = b
      ∧ (mkHistoryEntry hid now "Guest" taskId task u).taskTitle = task.title
      ∧ (mkHistoryEntry hid now "Guest" taskId task u).category = task.category
      ∧ (updateTaskGuest hid now taskId u d).1.history.length
          = d.history.length + 1)
    ∧ ((u.status = none ∨ u.status = some task.status) →
      ((updateTaskGuest hid now taskId u d).1.history = d.history)
      ∧ ((updateTaskCloud hid now taskId u d).1.history = d.history)) := by
  constructor
  · intro b hb hne
    have hsc : statusChanged u task = true := by
      unfold statusChanged
      rw [hb]
      exact decide_eq_true hne
    have hg : (updateTaskGuest hid now taskId u d).1.history
        = d.history ++ [mkHistoryEntry hid now "Guest" taskId task u] := by
      unfold updateTaskGuest
      rw [hfind]
      simp [hsc]
    have hc : (updateTaskCloud hid now taskId u d).1.history
        = d.history ++ [mkHistoryEntry hid now "Admin" taskId task u] := by
      unfold updateTaskCloud
      rw [hfind]
      simp [hsc]
    refine ⟨hg, hc, rfl, ?_, rfl, rfl, ?_⟩
    · unfold mkHistoryEntry
      rw [hb]
      rfl
    · rw [hg]
      simp
  · intro hsame
    have hsc : statusChanged u task = false := by
      unfold statusChanged
      rcases hsame with h | h <;> rw [h] <;> simp
    constructor
    · unfold updateTaskGuest
      rw [hfind]
      simp [hsc]
    · unfold updateTaskCloud
      rw [hfind]
      simp [hsc]

/-- C3 witness: moving the `not-started` task of `exStore` to `in-progress`
appends exactly the snapshot entry. -/
theorem updateTask_historyAppend_witness :
    (updateTaskGuest "h1" "NOW" "t1" { status := some TaskStatus.inProgress }
        exStore).1.history
      = exStore.history ++ [mkHistoryEntry "h1" "NOW" "Guest" "t1" exTask
          { status := some TaskStatus.inProgress }] :=
  ((updateTask_historyAppend "h1" "NOW" "t1"
      { status := some TaskStatus.inProgress } exStore exTask (by decide)).1
    TaskStatus.inProgress rfl (by decide)).1

/-- C4 counterexample: `exStoreDone`'s task is already `done` with no
completion date; updating it with status `done` and no supplied date leaves
its completion date unpopulated (the stamping is nested inside the
status-changed branch), contradicting "for every updateTask call whose update
sets status to 'done' and supplies no explicit completion date, the resulting
task's completion date is populated with the current timestamp". -/
theorem updateTask_completionStamp_counterexample :
    ((updateTaskGuest "h1" "NOW" "t1" { status := some TaskStatus.done }
        exStoreDone).1.tasks.map (fun t => t.completionDate)) = [none]
    ∧ (none : Option String) ≠ some "NOW" := by decide

/-- C4 (amended) — Completion-date stamping, for updates that change the
status of an existing task to `done` (current status ≠ `done`): when the
supplied completion date is absent or the empty string, the resulting task's
completion date is the current timestamp; when a non-empty completion date is
supplied, it is preserved unchanged — in both branches. -/
theorem updateTask_completionStamp (hid now taskId : String) (u : TaskUpdates)
    (d : StoreData) (task : SEOTask)
    (hfind : findTask d taskId = some task)
    (hstat : u.status = some TaskStatus.done)
    (hne : task.status ≠ TaskStatus.done) :
    ((u.completionDate = none ∨ u.completionDate = some "") →
      ((findTask (updateTaskGuest hid now taskId u d).1 taskId).map
          (fun t => t.completionDate) = some (some now))
      ∧ ((findTask (updateTaskCloud hid now taskId u d).1 taskId).map
          (fun t => t.completionDate) = some (some now)))
    ∧ (∀ c : String, c ≠ "" → u.completionDate = some c →
      ((findTask (updateTaskGuest hid now taskId u d).1 taskId).map
          (fun t => t.completionDate) = some (some c))
      ∧ ((findTask (updateTaskCloud hid now taskId u d).1 taskId).map
          (fun t => t.completionDate) = some (some c))) := by
  have hg := findTask_updateTaskGuest hid now taskId u d task hfind
  have hc := findTask_updateTaskCloud hid now taskId u d task hfind
  have hsc : statusChanged u task = true := by
    unfold statusChanged
    rw [hstat]
    exact decide_eq_true (Ne.symm hne)
  constructor
  · intro hfalsy
    have hf : isFalsyStr u.completionDate = true := by
      rcases hfalsy with h | h <;> rw [h] <;> simp [isFalsyStr]
    have hstamp : stampUpdates now task u = { u with completionDate := some now } := by
      unfold stampUpdates
      rw [if_pos ⟨hsc, hstat, hf⟩]
    rw [hg, hc, hstamp]
    constructor <;> simp [applyUpdates, applyDbUpdates]
  · intro c hcne hsup
    have hf : isFalsyStr u.completionDate = false := by
      rw [hsup]
      simp [isFalsyStr, hcne]
    have hstamp : stampUpdates now task u = u := by
      unfold stampUpdates
      rw [if_neg (fun hcontra => by rw [hf] at hcontra; exact Bool.false_ne_true hcontra.2.2)]
    rw [hg, hc, hstamp]
    constructor <;> simp [applyUpdates, applyDbUpdates, hsup]

/-- C4 witness: stamping the `not-started` task of `exStore` with the
current timestamp `"NOW"`, and preserving a supplied date `"2026-02-01"`. -/
theorem updateTask_completionStamp_witness :
    ((findTask (updateTaskGuest "h1" "NOW" "t1"
        { status := some TaskStatus.done } exStore).1 "t1").map
      (fun t => t.completionDate) = some (some "NOW"))
    ∧ ((findTask (updateTaskGuest "h2" "NOW" "t1"
        { status := some TaskStatus.done,
          completionDate := some "2026-02-01" } exStore).1 "t1").map
      (fun t => t.completionDate) = some (some "2026-02-01")) :=
  ⟨((updateTask_completionStamp "h1" "NOW" "t1"
      { status := some TaskStatus.done } exStore exTask (by decide) rfl
      (by decide)).1 (Or.inl rfl)).1,
    ((updateTask_completionStamp "h2" "NOW" "t1"
      { status := some TaskStatus.done, completionDate := some "2026-02-01" }
      exStore exTask (by decide) rfl (by decide)).2 "2026-02-01" (by decide)
      rfl).1⟩

/-- C7 counterexample: the partial `{ status: 'done' }` omits
`completionDate`, yet the stored task's completion date changes from `none`
to the stamped timestamp, contradicting "every field omitted from the partial
update is left at its previous value". -/
theorem updateTask_sparseFrame_counterexample :
    exTask.completionDate = none
    ∧ ({ status := some TaskStatus.done : TaskUpdates }.completionDate = none)
    ∧ ((findTask (updateTaskGuest "h1" "NOW" "t1"
          { status := some TaskStatus.done } exStore).1 "t1").map
        (fun t => t.completionDate)) = some (some "NOW")
    ∧ some (some "NOW") ≠ some (exTask.completionDate) := by decide

/-- C7 (amended) — Sparse update frame: on an existing task, for the
updatable fields `status`, `notes`, `proofUrl`, `timeSpentMinutes` and
`attachments`, a supplied value is merged and an omitted field keeps its
previous value, in both branches; `completionDate` obeys the same rule except
when the update changes the status to `done` with an absent or empty supplied
date, in which case it is set to the current timestamp (the stamping of C4). -/
theorem updateTask_sparseFrame (hid now taskId : String) (u : TaskUpdates)
    (d : StoreData) (task : SEOTask)
    (hfind : findTask d taskId = some task) :
    (findTask (updateTaskGuest hid now taskId u d).1 taskId
        = some (applyUpdates task (stampUpdates now task u)))
    ∧ (findTask (updateTaskCloud hid now taskId u d).1 taskId
        = some (applyDbUpdates task (stampUpdates now task u)))
    ∧ (∀ r : SEOTask,
        (r = applyUpdates task (stampUpdates now task u)
          ∨ r = applyDbUpdates task (stampUpdates now task u)) →
        r.status = u.status.getD task.status
        ∧ r.notes = u.notes.getD task.notes
        ∧ r.proofUrl = u.proofUrl.getD task.proofUrl
        ∧ r.timeSpentMinutes = u.timeSpentMinutes.getD task.timeSpentMinutes
        ∧ r.attachments = u.attachments.getD task.attachments
        ∧ (¬(statusChanged u task = true ∧ u.status = some TaskStatus.done
              ∧ isFalsyStr u.completionDate = true) →
            r.completionDate
              = (match u.completionDate with
                  | some c => some c
                  | none => task.completionDate))
        ∧ ((statusChanged u task = true ∧ u.status = some TaskStatus.done
              ∧ isFalsyStr u.completionDate = true) →
            r.completionDate = some now)) := by
  refine ⟨findTask_updateTaskGuest hid now taskId u d task hfind,
    findTask_updateTaskCloud hid now taskId u d task hfind, ?_⟩
  intro r hr
  obtain ⟨hst, hno, hpr, hti, hat, _, _⟩ := stampUpdates_fields now task u
  have hfields : r.status = (stampUpdates now task u).status.getD task.status
      ∧ r.notes = (stampUpdates now task u).notes.getD task.notes
      ∧ r.proofUrl = (stampUpdates now task u).proofUrl.getD task.proofUrl
      ∧ r.timeSpentMinutes
          = (stampUpdates now task u).timeSpentMinutes.getD task.timeSpentMinutes
      ∧ r.attachments
          = (stampUpdates now task u).attachments.getD task.attachments
      ∧ r.completionDate
          = (match (stampUpdates now task u).completionDate with
              | some c => some c
              | none => task.completionDate) := by
    rcases hr with rfl | rfl
    · exact ⟨rfl, rfl, rfl, rfl, rfl, rfl⟩
    · exact ⟨rfl, rfl, rfl, rfl, rfl, rfl⟩
  obtain ⟨f1, f2, f3, f4, f5, f6⟩ := hfields
  refine ⟨by rw [f1, hst], by rw [f2, hno], by rw [f3, hpr], by rw [f4, hti],
    by rw [f5, hat], ?_, ?_⟩
  · intro hnostamp
    have hstamp : stampUpdates now task u = u := by
      unfold stampUpdates
      rw [if_neg hnostamp]
    rw [f6, hstamp]
  · intro hdostamp
    have hstamp : stampUpdates now task u
        = { u with completionDate := some now } := by
      unfold stampUpdates
      rw [if_pos hdostamp]
    rw [f6, hstamp]

/-- C7 witness: merging a supplied `notes` field into the task of `exStore`. -/
theorem updateTask_sparseFrame_witness :
    findTask (updateTaskGuest "h1" "NOW" "t1" { notes := some "n" }
        exStore).1 "t1"
      = some (applyUpdates exTask
          (stampUpdates "NOW" exTask { notes := some "n" })) :=
  (updateTask_sparseFrame "h1" "NOW" "t1" { notes := some "n" } exStore exTask
    (by decide)).1

/-- C10 — `updateTask` mutates its caller-supplied argument: when the call
changes an existing task's status to `done` and the partial carries no
completion date, both branches assign the generated timestamp into the
partial itself, so after the call the caller's object differs from what was
passed in. -/
theorem updateTask_mutatesCallerPartial (hid now taskId : String)
    (u : TaskUpdates) (d : StoreData) (task : SEOTask)
    (hfind : findTask d taskId = some task)
    (hstat : u.status = some TaskStatus.done)
    (hne : task.status ≠ TaskStatus.done)
    (hnone : u.completionDate = none) :
    ((updateTaskGuest hid now taskId u d).2.completionDate = some now)
    ∧ ((updateTaskCloud hid now taskId u d).2.completionDate = some now)
    ∧ (updateTaskGuest hid now taskId u d).2 ≠ u := by
  have hsc : statusChanged u task = true := by
    unfold statusChanged
    rw [hstat]
    exact decide_eq_true (Ne.symm hne)
  have hf : isFalsyStr u.completionDate = true := by
    rw [hnone]
    rfl
  have hstamp : stampUpdates now task u
      = { u with completionDate := some now } := by
    unfold stampUpdates
    rw [if_pos ⟨hsc, hstat, hf⟩]
  have hgsnd : (updateTaskGuest hid now taskId u d).2 = stampUpdates now task u := by
    unfold updateTaskGuest
    rw [hfind]
  have hcsnd : (updateTaskCloud hid now taskId u d).2 = stampUpdates now task u := by
    unfold updateTaskCloud
    rw [hfind]
  refine ⟨by rw [hgsnd, hstamp], by rw [hcsnd, hstamp], ?_⟩
  rw [hgsnd, hstamp]
  intro hcontra
  have : (some now : Option String) = none := by
    rw [← hnone]
    exact congrArg TaskUpdates.completionDate hcontra
  exact Option.noConfusion this

/-- C10 witness: after `updateTask` with `{ status: 'done' }` on the
`not-started` task of `exStore`, the caller's partial carries the stamped
timestamp. -/
theorem updateTask_mutatesCallerPartial_witness :
    (updateTaskGuest "h1" "NOW" "t1" { status := some TaskStatus.done }
        exStore).2.completionDate = some "NOW" :=
  (updateTask_mutatesCallerPartial "h1" "NOW" "t1"
    { status := some TaskStatus.done } exStore exTask (by decide) rfl
    (by decide) rfl).1

/-- C1 counterexample: starting from guest state holding the non-empty
snapshot `exStore`, a sign-in issues the fetch *without* clearing the
snapshot, and when the fetch fails the store (now out of `loading`, i.e. in
cloud mode) still shows the prior guest-mode data — contradicting "snapshot
is cleared to empty before the remote fetch is issued" and "a failed fetch
leaving an empty/partial snapshot (never the prior guest-mode data)". -/
theorem modeSwitch_counterexample :
    (userChangeEffect none (some "u1") exGuestState).2 = true
    ∧ (userChangeEffect none (some "u1") exGuestState).1.data = exStore
    ∧ exStore ≠ emptyStore
    ∧ (loadCloudResolve FetchOutcome.failed
        (userChangeEffect none (some "u1") exGuestState).1).data = exStore
    ∧ (loadCloudResolve FetchOutcome.failed
        (userChangeEffect none (some "u1") exGuestState).1).loading = false := by
  decide

/-- C1 (amended) — Mode-switch protocol: when the Identity Signal presents an
identity different from the recorded one (in particular, a sign-in), the
store records it, sets `loading` and issues the remote fetch, leaving the
snapshot *unchanged* (not cleared); when the fetch resolves, `loading` ends in
both outcomes (Cloud mode): success replaces the snapshot with the fetched
data, failure leaves the snapshot as it was — possibly the prior guest-mode
data — and no retry is issued. -/
theorem modeSwitch_protocol (stored : Option StoreData) (s : StoreState)
    (uid : String) (h : s.prevUser ≠ some uid) :
    ((userChangeEffect stored (some uid) s).2 = true)
    ∧ ((userChangeEffect stored (some uid) s).1.data = s.data)
    ∧ ((userChangeEffect stored (some uid) s).1.loading = true)
    ∧ ((userChangeEffect stored (some uid) s).1.prevUser = some uid)
    ∧ (∀ fetched : StoreData,
        ((loadCloudResolve (FetchOutcome.ok fetched)
            (userChangeEffect stored (some uid) s).1).data = fetched)
        ∧ ((loadCloudResolve (FetchOutcome.ok fetched)
            (userChangeEffect stored (some uid) s).1).loading = false))
    ∧ ((loadCloudResolve FetchOutcome.failed
        (userChangeEffect stored (some uid) s).1).data = s.data)
    ∧ ((loadCloudResolve FetchOutcome.failed
        (userChangeEffect stored (some uid) s).1).loading = false) := by
  have heff : userChangeEffect stored (some uid) s
      = ({ s with prevUser := some uid, loading := true }, true) := by
    simp [userChangeEffect, h]
  rw [heff]
  exact ⟨rfl, rfl, rfl, rfl, fun fetched => ⟨rfl, rfl⟩, rfl, rfl⟩

/-- C1 witness: the amended protocol at the concrete sign-in of
`exGuestState`. -/
theorem modeSwitch_protocol_witness :
    (userChangeEffect none (some "u1") exGuestState).1.loading = true :=
  (modeSwitch_protocol none exGuestState "u1" (by decide)).2.2.1

/-- C6 counterexample: with the project insert succeeding (row `exProject`,
id `"p1"`) and the task-seeding insert failing, `createProject` returns
`"p1"`, not the empty-identifier sentinel — contradicting "the caller
likewise receives the empty-identifier sentinel signaling overall failure". -/
theorem createProject_sentinel_counterexample :
    ((createProjectCloud (some exProject) true (fun _ => "g") "NOW" []
        emptyStore).2 = "p1")
    ∧ ("p1" : String) ≠ "" := by decide

/-- C6 (amended) — createProject failure sentinel: in cloud mode, when the
project insert fails, task insertion is skipped, the store is untouched and
the empty identifier `''` is returned instead of throwing; when the project
insert succeeds, the new project's identifier is returned even if the
task-seeding insert fails, and the inserted project is not rolled back (the
tasks alone are missing). -/
theorem createProject_sentinel (gen : Nat → String) (now : String)
    (templates : List TaskTemplate) (d : StoreData) :
    (createProjectCloud none true gen now templates d = (d, ""))
    ∧ (createProjectCloud none false gen now templates d = (d, ""))
    ∧ ∀ (p : SEOProject) (taskInsertFails : Bool),
        ((createProjectCloud (some p) taskInsertFails gen now templates d).2
          = p.id)
        ∧ ((createProjectCloud (some p) taskInsertFails gen now
            templates d).1.projects = d.projects ++ [p])
        ∧ ((createProjectCloud (some p) true gen now templates d).1.tasks
          = d.tasks) :=
  ⟨rfl, rfl, fun p taskInsertFails => ⟨rfl, rfl, rfl⟩⟩

/-- C8 — Cascade delete (guest mode): after `deleteProject`, no project with
the deleted id, no task of the project and — provided task ids are pairwise
distinct, as `generateId` ensures — no history entry referring to one of the
project's tasks remains. -/
theorem deleteProject_cascade (projectId : String) (d : StoreData)
    (hnodup : (d.tasks.map (fun t => t.id)).Nodup) :
    (∀ p ∈ (deleteProjectGuest projectId d).projects, p.id ≠ projectId)
    ∧ (∀ t ∈ (deleteProjectGuest projectId d).tasks, t.projectId ≠ projectId)
    ∧ (∀ h ∈ (deleteProjectGuest projectId d).history,
        ∀ t ∈ d.tasks, t.id = h.taskId → t.projectId ≠ projectId) := by
  refine ⟨?_, ?_, ?_⟩
  · intro p hp
    simpa using List.of_mem_filter hp
  · intro t ht
    simpa using List.of_mem_filter ht
  · intro h hh t ht hid
    have hmem := List.of_mem_filter hh
    rw [show findTask d h.taskId = some t from
      find?_of_mem_nodup hnodup ht h.taskId hid] at hmem
    simpa using hmem

/-- C8 witness: deleting project `p1` from `exStore2` leaves the surviving
task `exTask2` outside `p1`, and the surviving history entry `h2` referring
only outside `p1`. -/
theorem deleteProject_cascade_witness :
    exTask2.projectId ≠ "p1" :=
  (deleteProject_cascade "p1" exStore2 (by decide)).2.1 exTask2 (by decide)

/-- Removing a reference that was absent before it was appended restores the
original list. -/
theorem filter_ne_append_self {l : List String} {r : String} (h : r ∉ l) :
    (l ++ [r]).filter (fun a => decide (a ≠ r)) = l := by
  rw [List.filter_append]
  have h1 : l.filter (fun a => decide (a ≠ r)) = l :=
    List.filter_eq_self.mpr
      (fun a ha => decide_eq_true (fun hc => h (hc ▸ ha)))
  have h2 : ([r] : List String).filter (fun a => decide (a ≠ r)) = [] := by
    simp
  rw [h1, h2, List.append_nil]

/-- C9 counterexample: the task of `exStoreDup` already holds the reference
`"d"`; uploading the same data URL `"d"` and then deleting it removes *both*
copies (delete filters every equal reference), leaving length 0 instead of
the pre-upload length 1. -/
theorem attachmentRoundTrip_counterexample :
    ((deleteAttachment "t1" "d"
        (uploadAttachmentGuest "d" "t1" exStoreDup).1).tasks.map
      (fun t => t.attachments.length)) = [0]
    ∧ (exStoreDup.tasks.map (fun t => t.attachments.length)) = [1]
    ∧ (uploadAttachmentGuest "d" "t1" exStoreDup).2 = some "d" := by decide

/-- C9 (amended) — Attachment round-trip: for an existing task whose
attachment list does not already contain the uploaded reference, uploading
and then deleting the reference returned by the upload restores the
pre-upload attachment-list length, in guest mode and in cloud mode with a
successful upload. -/
theorem attachmentRoundTrip (taskId r : String) (d : StoreData)
    (task : SEOTask) (hfind : findTask d taskId = some task)
    (hnotmem : r ∉ task.attachments) :
    (((findTask (deleteAttachment taskId r
          (uploadAttachmentGuest r taskId d).1) taskId).map
        (fun t => t.attachments.length)) = some task.attachments.length)
    ∧ ((uploadAttachmentGuest r taskId d).2 = some r)
    ∧ (((findTask (deleteAttachment taskId r
          (uploadAttachmentCloud r false taskId d).1) taskId).map
        (fun t => t.attachments.length)) = some task.attachments.length)
    ∧ ((uploadAttachmentCloud r false taskId d).2 = some r) := by
  have hgup : (uploadAttachmentGuest r taskId d).1
      = { d with tasks := d.tasks.map (fun t =>
          if t.id = taskId
          then { t with attachments := task.attachments ++ [r] }
          else t) } := by
    unfold uploadAttachmentGuest
    rw [hfind]
  have hgsnd : (uploadAttachmentGuest r taskId d).2 = some r := by
    unfold uploadAttachmentGuest
    rw [hfind]
  have hgfind : findTask (uploadAttachmentGuest r taskId d).1 taskId
      = some { task with attachments := task.attachments ++ [r] } := by
    rw [hgup]
    unfold findTask
    exact find?_map_update taskId
      (fun t => { t with attachments := task.attachments ++ [r] })
      (fun t => rfl) d.tasks task hfind
  have hcup : (uploadAttachmentCloud r false taskId d).1
      = { d with tasks := d.tasks.map (fun t =>
          if t.id = taskId
          then { t with attachments := task.attachments ++ [r] }
          else t) } := by
    unfold uploadAttachmentCloud
    rw [if_neg Bool.false_ne_true, hfind]
  have hcsnd : (uploadAttachmentCloud r false taskId d).2 = some r := by
    unfold uploadAttachmentCloud
    rw [if_neg Bool.false_ne_true]
  have hcfind : findTask (uploadAttachmentCloud r false taskId d).1 taskId
      = some { task with attachments := task.attachments ++ [r] } := by
    rw [hcup]
    unfold findTask
    exact find?_map_update taskId
      (fun t => { t with attachments := task.attachments ++ [r] })
      (fun t => rfl) d.tasks task hfind
  have hrestore :
      ({ task with attachments := task.attachments ++ [r] } :
        SEOTask).attachments.filter (fun a => decide (a ≠ r))
      = task.attachments := filter_ne_append_self hnotmem
  have hgdel : findTask (deleteAttachment taskId r
      (uploadAttachmentGuest r taskId d).1) taskId
      = some { task with attachments := task.attachments } := by
    unfold deleteAttachment
    rw [hgfind]
    simp only [hrestore]
    unfold findTask
    exact find?_map_update taskId
      (fun t => { t with attachments := task.attachments })
      (fun t => rfl) _
      ({ task with attachments := task.attachments ++ [r] }) hgfind
  have hcdel : findTask (deleteAttachment taskId r
      (uploadAttachmentCloud r false taskId d).1) taskId
      = some { task with attachments := task.attachments } := by
    unfold deleteAttachment
    rw [hcfind]
    simp only [hrestore]
    unfold findTask
    exact find?_map_update taskId
      (fun t => { t with attachments := task.attachments })
      (fun t => rfl) _
      ({ task with attachments := task.attachments ++ [r] }) hcfind
  rw [hgdel, hcdel]
  exact ⟨rfl, hgsnd, rfl, hcsnd⟩

/-- C9 witness: the round trip on the attachment-free task of `exStore`. -/
theorem attachmentRoundTrip_witness :
    ((findTask (deleteAttachment "t1" "u"
        (uploadAttachmentGuest "u" "t1" exStore).1) "t1").map
      (fun t => t.attachments.length)) = some exTask.attachments.length :=
  (attachmentRoundTrip "t1" "u" exStore exTask (by decide) (by decide)).1

end SeoCompass
